import Mathlib

set_option linter.unusedVariables false

/-!
Shallow embedding of the `homebridge-presence` plugin's decay-engine logic.

Three source variants are modelled:
* `SimpleState` / `onTrigger` — `src/src/accessory.ts` (one trigger switch, motion
  and occupancy signals with independent decay delays);
* `DualState` / `onMotion`, `onOccupancy` — the dual-switch variant
  (`src/unnamed/part_000`);
* `FanState` / `onSwitchSet` — the multi-trigger fan-out variant
  (`src/unnamed/part_001`).

Node timers are modelled explicitly: each `setTimeout` call appends a record with a
fresh id, an absolute fire time in milliseconds and an action tag; `clearTimeout`
marks the record cancelled; firing marks it fired and performs the action.  A timer
is *live* when it is neither cancelled nor fired.  HAP semantics: `setValue`
updates a characteristic's value and invokes its SET handler, `updateValue` only
updates the value.
-/

/-- A scheduled one-shot timer (models a `NodeJS.Timeout`). -/
structure Timer (α : Type) where
  id : Nat
  fireAt : Nat
  act : α
  cancelled : Bool
  fired : Bool
deriving DecidableEq

/-- A timer is live: scheduled, not fired, not cancelled. -/
def liveT {α : Type} (t : Timer α) : Bool := !t.cancelled && !t.fired

/-- Model of `clearTimeout`: cancelling an already-fired timer is a no-op. -/
def clearT {α : Type} (ts : List (Timer α)) (i : Nat) : List (Timer α) :=
  ts.map fun t => if t.id = i ∧ t.fired = false then { t with cancelled := true } else t

/-- Mark the timer with the given id as fired. -/
def markFired {α : Type} (ts : List (Timer α)) (i : Nat) : List (Timer α) :=
  ts.map fun t => if t.id = i then { t with fired := true } else t

/-- `clearTimeout` guarded by a null-check on an optional handle. -/
def clearOpt {α : Type} (ts : List (Timer α)) (h : Option Nat) : List (Timer α) :=
  match h with
  | some i => clearT ts i
  | none => ts

/-- Order in which the Node event loop fires timers: by fire time, ties by creation. -/
def earlierT {α : Type} (a b : Timer α) : Bool :=
  decide (a.fireAt < b.fireAt) || (a.fireAt == b.fireAt && decide (a.id < b.id))

/-- The live timer the event loop fires next. -/
def pickEarliest {α : Type} : List (Timer α) → Option (Timer α)
  | [] => none
  | t :: ts =>
    match pickEarliest ts with
    | none => some t
    | some u => if earlierT u t then some u else some t

/-- JS `x || default` applied to an optional numeric config value (`0` is falsy). -/
def jsOrNat (v : Option Nat) (d : Nat) : Nat :=
  match v with
  | none => d
  | some n => if n = 0 then d else n

/-- JS `x || false` applied to an optional boolean config value. -/
def jsOrBool (v : Option Bool) : Bool :=
  match v with
  | none => false
  | some b => b

/-! ## Simple variant (`src/src/accessory.ts`) -/

/-- What a timer callback does in the simple variant. -/
inductive SAct : Type where
  | decayMotion
  | decayOccupancy
  | resetTrigger
deriving DecidableEq

/-- State of the simple-variant accessory. -/
structure SimpleState where
  stateful : Bool
  motionDelay : Nat
  occupancyDelay : Nat
  motion : Bool
  occupancy : Bool
  triggerOn : Bool
  motionTimer : Option Nat
  occupancyTimer : Option Nat
  timers : List (Timer SAct)
  nextId : Nat
deriving DecidableEq

/-- Accessory configuration as read from `config` (absent field = `none`). -/
structure SimpleConfig where
  stateful : Option Bool
  motionDelay : Option Nat
  occupancyDelay : Option Nat

/-- Constructor of the simple variant: defaults applied with JS `||`. -/
def initSimple (c : SimpleConfig) : SimpleState :=
  { stateful := jsOrBool c.stateful
    motionDelay := jsOrNat c.motionDelay (60 * 60)
    occupancyDelay := jsOrNat c.occupancyDelay (12 * 60 * 60)
    motion := false
    occupancy := false
    triggerOn := false
    motionTimer := none
    occupancyTimer := none
    timers := []
    nextId := 0 }

/-- `if (handle !== null) clearTimeout(handle)` on the simple state's timer list. -/
def clearHandleS (s : SimpleState) (h : Option Nat) : SimpleState :=
  { s with timers := clearOpt s.timers h }

/-- The `onTrigger` SET handler of `src/src/accessory.ts`. -/
def onTrigger (s : SimpleState) (now : Nat) (value : Bool) : SimpleState :=
  if value then
    let s1 := { s with motion := true, occupancy := true }
    let s2 := clearHandleS s1 s1.motionTimer
    let s3 := clearHandleS s2 s2.occupancyTimer
    if s3.stateful = false then
      { s3 with
        timers := s3.timers ++ [Timer.mk s3.nextId (now + 1000) SAct.resetTrigger false false]
        nextId := s3.nextId + 1 }
    else s3
  else
    let s1 := { s with
      timers := s.timers ++
        [Timer.mk s.nextId (now + s.motionDelay * 1000) SAct.decayMotion false false]
      motionTimer := some s.nextId
      nextId := s.nextId + 1 }
    { s1 with
      timers := s1.timers ++
        [Timer.mk s1.nextId (now + s1.occupancyDelay * 1000) SAct.decayOccupancy false false]
      occupancyTimer := some s1.nextId
      nextId := s1.nextId + 1 }

/-- External SET of the trigger switch: value updated, handler invoked. -/
def setTrigger (s : SimpleState) (now : Nat) (value : Bool) : SimpleState :=
  onTrigger { s with triggerOn := value } now value

/-- Fire a timer in the simple variant.  The auto-reset callback runs
`this.trigger.setValue(false)`, which re-enters `onTrigger`. -/
def fireS (s : SimpleState) (t : Timer SAct) : SimpleState :=
  let s1 := { s with timers := markFired s.timers t.id }
  match t.act with
  | SAct.decayMotion => { s1 with motion := false }
  | SAct.decayOccupancy => { s1 with occupancy := false }
  | SAct.resetTrigger => setTrigger s1 t.fireAt false

/-- The live timers of a simple state. -/
def liveListS (s : SimpleState) : List (Timer SAct) := s.timers.filter liveT

/-- Fire the earliest live timer, if any. -/
def drainStepS (s : SimpleState) : SimpleState :=
  match pickEarliest (liveListS s) with
  | none => s
  | some t => fireS s t

/-- Let the event loop run `n` timer firings. -/
def drainS (s : SimpleState) : Nat → SimpleState
  | 0 => s
  | n + 1 => drainS (drainStepS s) n

/-- Number of live timers of a simple state carrying the given action. -/
def liveCountS (s : SimpleState) (a : SAct) : Nat :=
  (s.timers.filter fun t => liveT t && t.act == a).length

/-- Default configuration: all fields absent. -/
def cfgDefault : SimpleConfig := ⟨none, none, none⟩

example : (initSimple cfgDefault).motionDelay = 3600 := rfl

example : liveCountS (setTrigger (initSimple cfgDefault) 0 false) SAct.decayMotion = 1 := rfl

/-- C1: the claim states that after any sequence of trigger events no signal ever has
two live decay timers, and in particular that two consecutive trigger-OFF events must
not leave two live decay timers.  The simple variant violates this: its OFF branch
schedules a fresh decay timer without cancelling the previous one, so two consecutive
trigger-OFF events leave two live motion-decay timers (and two occupancy-decay
timers). -/
theorem c1_simple_two_offs_leave_two_live_motion_timers :
    liveCountS (setTrigger (setTrigger (initSimple cfgDefault) 0 false) 1000 false)
        SAct.decayMotion = 2 ∧
    liveCountS (setTrigger (setTrigger (initSimple cfgDefault) 0 false) 1000 false)
        SAct.decayOccupancy = 2 := by
  constructor <;> rfl

theorem clearT_live_pull {α : Type} {ts : List (Timer α)} {i : Nat} {u : Timer α}
    (hu : u ∈ clearT ts i) (hl : liveT u = true) : u ∈ ts ∧ u.id ≠ i := by
  unfold clearT at hu
  rcases List.mem_map.mp hu with ⟨v, hv, heq⟩
  by_cases hc : v.id = i ∧ v.fired = false
  · rw [if_pos hc] at heq
    rw [← heq] at hl
    simp [liveT] at hl
  · rw [if_neg hc] at heq
    subst heq
    refine ⟨hv, ?_⟩
    intro hid
    simp [liveT, Bool.and_eq_true, Bool.not_eq_true'] at hl
    exact hc ⟨hid, hl.2⟩

theorem clearT_id_dead {α : Type} {ts : List (Timer α)} {i : Nat} {u : Timer α}
    (hu : u ∈ clearT ts i) (hid : u.id = i) : liveT u = false := by
  by_cases h : liveT u = true
  · exact absurd hid (clearT_live_pull hu h).2
  · simpa using h

theorem clearOpt_live_pull {α : Type} {ts : List (Timer α)} {h : Option Nat} {u : Timer α}
    (hu : u ∈ clearOpt ts h) (hl : liveT u = true) :
    u ∈ ts ∧ ∀ i, h = some i → u.id ≠ i := by
  cases h with
  | none => exact ⟨hu, by intro i hi; cases hi⟩
  | some i =>
    have hp := clearT_live_pull hu hl
    exact ⟨hp.1, by intro j hj; cases hj; exact hp.2⟩

theorem clearOpt_mem_id {α : Type} {ts : List (Timer α)} {h : Option Nat} {u : Timer α}
    (hu : u ∈ clearOpt ts h) : ∃ v ∈ ts, u.id = v.id := by
  cases h with
  | none => exact ⟨u, hu, rfl⟩
  | some i =>
    unfold clearOpt clearT at hu
    rcases List.mem_map.mp hu with ⟨v, hv, heq⟩
    by_cases hc : v.id = i ∧ v.fired = false
    · rw [if_pos hc] at heq
      exact ⟨v, hv, by rw [← heq]⟩
    · rw [if_neg hc] at heq
      exact ⟨v, hv, by rw [← heq]⟩

theorem clearOpt_dead_of_dead {α : Type} {ts : List (Timer α)} {h : Option Nat} {i : Nat}
    (hd : ∀ v ∈ ts, v.id = i → liveT v = false) :
    ∀ u ∈ clearOpt ts h, u.id = i → liveT u = false := by
  intro u hu hid
  by_cases hl : liveT u = true
  · have hp := clearOpt_live_pull hu hl
    have := hd u hp.1 hid
    rw [this] at hl
    cases hl
  · simpa using hl

/-- C7: in the simple variant a trigger-OFF event leaves both signal values
unchanged and schedules exactly two fresh timers: a motion decay firing
`motionDelay` seconds after the event and an occupancy decay firing
`occupancyDelay` seconds after it; firing a motion-decay (resp. occupancy-decay)
timer sets motion (resp. occupancy) to false. -/
theorem c7_simple_off_schedules_decays (s : SimpleState) (now : Nat) :
    (setTrigger s now false).motion = s.motion ∧
    (setTrigger s now false).occupancy = s.occupancy ∧
    (setTrigger s now false).timers = s.timers ++
      [Timer.mk s.nextId (now + s.motionDelay * 1000) SAct.decayMotion false false,
       Timer.mk (s.nextId + 1) (now + s.occupancyDelay * 1000) SAct.decayOccupancy false false] ∧
    (setTrigger s now false).motionTimer = some s.nextId ∧
    (setTrigger s now false).occupancyTimer = some (s.nextId + 1) ∧
    (∀ (s2 : SimpleState) (t : Timer SAct), t.act = SAct.decayMotion →
      (fireS s2 t).motion = false) ∧
    (∀ (s2 : SimpleState) (t : Timer SAct), t.act = SAct.decayOccupancy →
      (fireS s2 t).occupancy = false) := by
  refine ⟨rfl, rfl, by simp [setTrigger, onTrigger], rfl, rfl, ?_, ?_⟩
  · intro s2 t ht
    simp [fireS, ht]
  · intro s2 t ht
    simp [fireS, ht]

/-! ## Dual-switch variant (`src/unnamed/part_000`) -/

/-- What a timer callback does in the dual-switch variant. -/
inductive DAct : Type where
  | decayMotion
  | decayOccupancy
  | resetMotionTrigger
deriving DecidableEq

/-- State of the dual-switch accessory. -/
structure DualState where
  stateful : Bool
  motionDelay : Nat
  occupancyDelay : Nat
  motion : Bool
  occupancy : Bool
  motionTriggerOn : Bool
  occupancyTriggerOn : Bool
  motionTimer : Option Nat
  occupancyTimer : Option Nat
  timers : List (Timer DAct)
  nextId : Nat
deriving DecidableEq

/-- Constructor of the dual-switch variant. -/
def initDual (c : SimpleConfig) : DualState :=
  { stateful := jsOrBool c.stateful
    motionDelay := jsOrNat c.motionDelay (60 * 60)
    occupancyDelay := jsOrNat c.occupancyDelay (12 * 60 * 60)
    motion := false
    occupancy := false
    motionTriggerOn := false
    occupancyTriggerOn := false
    motionTimer := none
    occupancyTimer := none
    timers := []
    nextId := 0 }

/-- Null-checked `clearTimeout` on the dual state's timer list. -/
def clearHandleD (s : DualState) (h : Option Nat) : DualState :=
  { s with timers := clearOpt s.timers h }

/-- The `onMotion` SET handler of the dual-switch variant. -/
def onMotion (s : DualState) (now : Nat) (value : Bool) : DualState :=
  let s1 := clearHandleD s s.motionTimer
  let s2 := clearHandleD s1 s1.occupancyTimer
  if value then
    let s3 := { s2 with motion := true, occupancy := true, occupancyTriggerOn := true }
    if s3.stateful = false then
      { s3 with
        timers := s3.timers ++
          [Timer.mk s3.nextId (now + 1000) DAct.resetMotionTrigger false false]
        nextId := s3.nextId + 1 }
    else s3
  else
    { s2 with
      timers := s2.timers ++
        [Timer.mk s2.nextId (now + s2.motionDelay * 1000) DAct.decayMotion false false]
      motionTimer := some s2.nextId
      nextId := s2.nextId + 1 }

/-- The `onOccupancy` SET handler of the dual-switch variant. -/
def onOccupancy (s : DualState) (now : Nat) (value : Bool) : DualState :=
  let s1 := clearHandleD s s.motionTimer
  let s2 := clearHandleD s1 s1.occupancyTimer
  if value then
    { s2 with occupancy := true }
  else
    { s2 with
      motion := false
      motionTriggerOn := false
      timers := s2.timers ++
        [Timer.mk s2.nextId (now + s2.occupancyDelay * 1000) DAct.decayOccupancy false false]
      occupancyTimer := some s2.nextId
      nextId := s2.nextId + 1 }

/-- External SET of the motion trigger switch: value updated, handler invoked. -/
def setMotionTrigger (s : DualState) (now : Nat) (value : Bool) : DualState :=
  onMotion { s with motionTriggerOn := value } now value

/-- External SET of the occupancy trigger switch: value updated, handler invoked. -/
def setOccupancyTrigger (s : DualState) (now : Nat) (value : Bool) : DualState :=
  onOccupancy { s with occupancyTriggerOn := value } now value

/-- Fire a timer in the dual-switch variant.  The auto-reset callback runs
`this.motionTrigger.setValue(false)`, which re-enters `onMotion`. -/
def fireD (s : DualState) (t : Timer DAct) : DualState :=
  let s1 := { s with timers := markFired s.timers t.id }
  match t.act with
  | DAct.decayMotion => { s1 with motion := false }
  | DAct.decayOccupancy => { s1 with occupancy := false }
  | DAct.resetMotionTrigger => setMotionTrigger s1 t.fireAt false

/-- The live timers of a dual state. -/
def liveListD (s : DualState) : List (Timer DAct) := s.timers.filter liveT

/-- Fire the earliest live timer of the dual state, if any. -/
def drainStepD (s : DualState) : DualState :=
  match pickEarliest (liveListD s) with
  | none => s
  | some t => fireD s t

/-- Every live decay timer of the dual state is tracked by the matching handle
(the state of affairs the spec's one-timer-per-signal invariant describes). -/
def handlesCoverD (s : DualState) : Prop :=
  ∀ t ∈ s.timers, liveT t = true →
    (t.act = DAct.decayMotion → s.motionTimer = some t.id) ∧
    (t.act = DAct.decayOccupancy → s.occupancyTimer = some t.id)

example : (setMotionTrigger (initDual cfgDefault) 0 false).timers =
    [Timer.mk 0 3600000 DAct.decayMotion false false] := rfl

theorem clearOpt_length {α : Type} (ts : List (Timer α)) (h : Option Nat) :
    (clearOpt ts h).length = ts.length := by
  cases h <;> simp [clearOpt, clearT]

/-- C10: in the dual-switch variant an occupancy-ON event cancels both pending decay
timers and sets only the occupancy signal true; the motion signal, the motion trigger
switch and the occupancy trigger switch are untouched by the handler and no decay is
scheduled (no timer is added), so a previously-true motion signal stays true with no
live decay timer. -/
theorem c10_dual_occupancy_on_frame (s : DualState) (now : Nat) (h : handlesCoverD s) :
    (onOccupancy s now true).occupancy = true ∧
    (onOccupancy s now true).motion = s.motion ∧
    (onOccupancy s now true).motionTriggerOn = s.motionTriggerOn ∧
    (onOccupancy s now true).occupancyTriggerOn = s.occupancyTriggerOn ∧
    (onOccupancy s now true).nextId = s.nextId ∧
    (onOccupancy s now true).timers.length = s.timers.length ∧
    (∀ t ∈ (onOccupancy s now true).timers, liveT t = true →
      t.act = DAct.resetMotionTrigger) := by
  refine ⟨rfl, rfl, rfl, rfl, rfl, ?_, ?_⟩
  · show (clearOpt (clearOpt s.timers s.motionTimer) s.occupancyTimer).length = s.timers.length
    rw [clearOpt_length, clearOpt_length]
  · intro t ht hl
    have ht2 : t ∈ clearOpt (clearOpt s.timers s.motionTimer) s.occupancyTimer := ht
    have hp2 := clearOpt_live_pull ht2 hl
    have hp1 := clearOpt_live_pull hp2.1 hl
    have hcov := h t hp1.1 hl
    cases hact : t.act with
    | decayMotion =>
      exact absurd rfl (hp1.2 t.id (hcov.1 hact))
    | decayOccupancy =>
      exact absurd rfl (hp2.2 t.id (hcov.2 hact))
    | resetMotionTrigger => rfl

/-- Reachable sample state of the dual variant: motion trigger fired OFF at t=0, so a
motion-decay timer (id 0) is live and tracked by the handle. -/
def dualSample : DualState := setMotionTrigger (initDual cfgDefault) 0 false

theorem c10_dual_occupancy_on_frame_witness :
    handlesCoverD dualSample ∧
    ((onOccupancy dualSample 5000 true).occupancy = true ∧
     (onOccupancy dualSample 5000 true).motion = dualSample.motion ∧
     (onOccupancy dualSample 5000 true).motionTriggerOn = dualSample.motionTriggerOn ∧
     (onOccupancy dualSample 5000 true).occupancyTriggerOn = dualSample.occupancyTriggerOn ∧
     (onOccupancy dualSample 5000 true).nextId = dualSample.nextId ∧
     (onOccupancy dualSample 5000 true).timers.length = dualSample.timers.length ∧
     (∀ t ∈ (onOccupancy dualSample 5000 true).timers, liveT t = true →
       t.act = DAct.resetMotionTrigger)) :=
  ⟨by unfold handlesCoverD; decide,
   c10_dual_occupancy_on_frame dualSample 5000 (by unfold handlesCoverD; decide)⟩

/-- C8: in the dual-switch variant, with motion true and a live motion-decay timer
pending, an external occupancy-OFF immediately sets motion false, resets the motion
trigger switch, kills every timer with the pending timer's id (so no value flip can
happen at the originally scheduled decay time), and schedules an occupancy decay
firing `occupancyDelay` seconds later (whose firing sets occupancy false). -/
theorem c8_dual_occupancy_off_preempts_motion (s : DualState) (now i : Nat)
    (hm : s.motion = true) (hp : s.motionTimer = some i)
    (hex : ∃ t ∈ s.timers, t.id = i ∧ t.act = DAct.decayMotion ∧ liveT t = true)
    (hf : ∀ t ∈ s.timers, t.id < s.nextId) :
    (setOccupancyTrigger s now false).motion = false ∧
    (setOccupancyTrigger s now false).motionTriggerOn = false ∧
    (∀ u ∈ (setOccupancyTrigger s now false).timers, u.id = i → liveT u = false) ∧
    Timer.mk s.nextId (now + s.occupancyDelay * 1000) DAct.decayOccupancy false false ∈
      (setOccupancyTrigger s now false).timers ∧
    (setOccupancyTrigger s now false).occupancyTimer = some s.nextId ∧
    (∀ (s2 : DualState) (t : Timer DAct), t.act = DAct.decayOccupancy →
      (fireD s2 t).occupancy = false) := by
  refine ⟨rfl, rfl, ?_, ?_, rfl, ?_⟩
  · intro u hu hid
    have hu2 : u ∈ clearOpt (clearOpt s.timers s.motionTimer) s.occupancyTimer ++
        [Timer.mk s.nextId (now + s.occupancyDelay * 1000) DAct.decayOccupancy false false] := hu
    rcases List.mem_append.mp hu2 with hl | hr
    · have hdead : ∀ v ∈ clearOpt s.timers s.motionTimer, v.id = i → liveT v = false := by
        rw [hp]
        intro v hv hvid
        exact clearT_id_dead hv hvid
      exact clearOpt_dead_of_dead hdead u hl hid
    · rcases hex with ⟨t, htmem, htid, -, -⟩
      have : i < s.nextId := htid ▸ hf t htmem
      rcases List.mem_singleton.mp hr with rfl
      simp only at hid
      omega
  · exact List.mem_append_right _ (List.mem_singleton.mpr rfl)
  · intro s2 t hact
    simp [fireD, hact]

/-- Reachable dual-variant state with motion true and a live motion-decay timer:
motion trigger ON at t=0 (stateful=false schedules the switch auto-reset), then
motion trigger OFF at t=200. -/
def dualSample2 : DualState :=
  setMotionTrigger (setMotionTrigger (initDual cfgDefault) 0 true) 200 false

theorem c8_dual_occupancy_off_preempts_motion_witness :
    (dualSample2.motion = true ∧ dualSample2.motionTimer = some 1 ∧
     (∃ t ∈ dualSample2.timers, t.id = 1 ∧ t.act = DAct.decayMotion ∧ liveT t = true) ∧
     (∀ t ∈ dualSample2.timers, t.id < dualSample2.nextId)) ∧
    ((setOccupancyTrigger dualSample2 300 false).motion = false ∧
     (setOccupancyTrigger dualSample2 300 false).motionTriggerOn = false ∧
     (∀ u ∈ (setOccupancyTrigger dualSample2 300 false).timers, u.id = 1 →
       liveT u = false) ∧
     Timer.mk dualSample2.nextId (300 + dualSample2.occupancyDelay * 1000)
         DAct.decayOccupancy false false ∈ (setOccupancyTrigger dualSample2 300 false).timers ∧
     (setOccupancyTrigger dualSample2 300 false).occupancyTimer = some dualSample2.nextId ∧
     (∀ (s2 : DualState) (t : Timer DAct), t.act = DAct.decayOccupancy →
       (fireD s2 t).occupancy = false)) :=
  ⟨⟨by decide, by decide, by decide, by decide⟩,
   c8_dual_occupancy_off_preempts_motion dualSample2 300 1 (by decide) (by decide)
     (by decide) (by decide)⟩

/-- C3 counterexample: in the dual-switch variant, schedule a motion decay (trigger
OFF at t=0) and let the timer fire.  The signal's value drops to false as claimed,
but the pending-timer handle is *not* cleared: `motionTimer` still holds the fired
timer's id, refuting the claim that after the timer fires the signal holds no timer
handle. -/
theorem c3_counterexample_handle_not_cleared :
    (drainStepD (setMotionTrigger (initDual cfgDefault) 0 false)).motion = false ∧
    (drainStepD (setMotionTrigger (initDual cfgDefault) 0 false)).motionTimer = some 0 ∧
    (drainStepD (setMotionTrigger (initDual cfgDefault) 0 false)).timers =
      [Timer.mk 0 3600000 DAct.decayMotion false true] :=
  ⟨rfl, rfl, rfl⟩

/-- C3 (amended): scheduling a motion decay cancels every timer carrying the
signal's pending handle id, then schedules a fresh one-shot timer firing
`motionDelay` seconds later and stores its id in the handle; firing a decay timer
sets the signal false and notifies, but does not clear the pending-timer handle —
the handle keeps its value (and so retains the fired timer). -/
theorem c3_schedule_decay_amended (s : DualState) (now i : Nat)
    (hp : s.motionTimer = some i) (hlt : i < s.nextId) :
    (∀ u ∈ (onMotion s now false).timers, u.id = i → liveT u = false) ∧
    Timer.mk s.nextId (now + s.motionDelay * 1000) DAct.decayMotion false false ∈
      (onMotion s now false).timers ∧
    (onMotion s now false).motionTimer = some s.nextId ∧
    (∀ (s2 : DualState) (t : Timer DAct), t.act = DAct.decayMotion →
      (fireD s2 t).motion = false ∧ (fireD s2 t).motionTimer = s2.motionTimer) := by
  refine ⟨?_, ?_, rfl, ?_⟩
  · intro u hu hid
    have hu2 : u ∈ clearOpt (clearOpt s.timers s.motionTimer) s.occupancyTimer ++
        [Timer.mk s.nextId (now + s.motionDelay * 1000) DAct.decayMotion false false] := hu
    rcases List.mem_append.mp hu2 with hl | hr
    · have hdead : ∀ v ∈ clearOpt s.timers s.motionTimer, v.id = i → liveT v = false := by
        rw [hp]
        intro v hv hvid
        exact clearT_id_dead hv hvid
      exact clearOpt_dead_of_dead hdead u hl hid
    · rcases List.mem_singleton.mp hr with rfl
      simp only at hid
      omega
  · exact List.mem_append_right _ (List.mem_singleton.mpr rfl)
  · intro s2 t hact
    constructor
    · simp [fireD, hact]
    · simp [fireD, hact, markFired]

theorem c3_schedule_decay_amended_witness :
    (dualSample.motionTimer = some 0 ∧ 0 < dualSample.nextId) ∧
    ((∀ u ∈ (onMotion dualSample 2000 false).timers, u.id = 0 → liveT u = false) ∧
     Timer.mk dualSample.nextId (2000 + dualSample.motionDelay * 1000)
         DAct.decayMotion false false ∈ (onMotion dualSample 2000 false).timers ∧
     (onMotion dualSample 2000 false).motionTimer = some dualSample.nextId ∧
     (∀ (s2 : DualState) (t : Timer DAct), t.act = DAct.decayMotion →
       (fireD s2 t).motion = false ∧ (fireD s2 t).motionTimer = s2.motionTimer)) :=
  ⟨⟨by decide, by decide⟩, c3_schedule_decay_amended dualSample 2000 0 (by decide) (by decide)⟩

/-- C4 counterexample: a configured `motionDelay` of 0 is falsy in JS, so
`config.motionDelay || 3600` replaces it with the default.  With `motionDelay = 0`
configured, a trigger-OFF at t=0 schedules the motion decay to fire at t=3600 s (and
the occupancy decay at the 43200 s default), not at (approximately) the same
instant.  This refutes the claim that a configured delay of 0 is accepted and decays
on the next scheduler tick. -/
theorem c4_counterexample_zero_delay_becomes_default :
    (initSimple (SimpleConfig.mk none (some 0) none)).motionDelay = 3600 ∧
    ((setTrigger (initSimple (SimpleConfig.mk none (some 0) none)) 0 false).timers.map
      fun t => t.fireAt) = [3600000, 43200000] :=
  ⟨rfl, rfl⟩

/-- C4 (amended): a configured decay delay of 0 seconds is treated as absent by the
JS `||` defaulting and replaced by the default delay (3600 s for motion); the
trigger-OFF handler never decays a signal synchronously — it only schedules a timer,
firing `motionDelay` (effective) seconds later, and leaves both signal values
unchanged at the time of the event. -/
theorem c4_zero_delay_amended (c : SimpleConfig) (now : Nat) (h : c.motionDelay = some 0) :
    (initSimple c).motionDelay = 3600 ∧
    (∀ (s : SimpleState), (setTrigger s now false).motion = s.motion ∧
      (setTrigger s now false).occupancy = s.occupancy ∧
      Timer.mk s.nextId (now + s.motionDelay * 1000) SAct.decayMotion false false ∈
        (setTrigger s now false).timers) := by
  constructor
  · simp [initSimple, jsOrNat, h]
  · intro s
    refine ⟨rfl, rfl, ?_⟩
    exact List.mem_append_left _ (List.mem_append_right _ (List.mem_singleton.mpr rfl))

theorem c4_zero_delay_amended_witness :
    (SimpleConfig.mk none (some 0) none).motionDelay = some 0 ∧
    ((initSimple (SimpleConfig.mk none (some 0) none)).motionDelay = 3600 ∧
     (∀ (s : SimpleState), (setTrigger s 0 false).motion = s.motion ∧
       (setTrigger s 0 false).occupancy = s.occupancy ∧
       Timer.mk s.nextId (0 + s.motionDelay * 1000) SAct.decayMotion false false ∈
         (setTrigger s 0 false).timers)) :=
  ⟨rfl, c4_zero_delay_amended (SimpleConfig.mk none (some 0) none) 0 rfl⟩

/-! ## Multi-trigger fan-out variant (`src/unnamed/part_001`) -/

/-- A configured trigger of the fan-out variant: one occupancy sensor plus its own
decay delay and pending-timer handle. -/
structure FTrigger where
  name : String
  delay : Nat
  occupancy : Bool
  timer : Option Nat
deriving DecidableEq

/-- What a timer callback does in the fan-out variant: decay the occupancy signal of
the trigger at a given position, or auto-reset the shared switch. -/
inductive FAct : Type where
  | decay (idx : Nat)
  | resetSwitch
deriving DecidableEq

/-- State of the fan-out accessory. -/
structure FanState where
  switchOn : Bool
  triggers : List FTrigger
  timers : List (Timer FAct)
  nextId : Nat
deriving DecidableEq

/-- Constructor of the fan-out variant from the `triggers` config list. -/
def initFan (cfg : List (String × Nat)) : FanState :=
  { switchOn := false
    triggers := cfg.map fun p => FTrigger.mk p.1 p.2 false none
    timers := []
    nextId := 0 }

/-- The `forEach` body of the fan-out SET handler, over the trigger list: for each
trigger set its occupancy true, clear its pending timer if non-null, and schedule a
fresh decay after the trigger's own delay. -/
def procTriggers (now : Nat) : List FTrigger → Nat → List (Timer FAct) → Nat →
    List FTrigger × List (Timer FAct) × Nat
  | [], _, tms, nid => ([], tms, nid)
  | tr :: rest, idx, tms, nid =>
    let tms2 := clearOpt tms tr.timer ++
      [Timer.mk nid (now + tr.delay * 1000) (FAct.decay idx) false false]
    let out := procTriggers now rest (idx + 1) tms2 (nid + 1)
    ({ tr with occupancy := true, timer := some nid } :: out.1, out.2.1, out.2.2)

/-- The shared switch's SET handler: note it never reads `value`.  After the
`forEach`, it schedules the unconditional switch auto-reset after 1 second. -/
def onSwitchSet (s : FanState) (now : Nat) (value : Bool) : FanState :=
  let r := procTriggers now s.triggers 0 s.timers s.nextId
  { s with
    triggers := r.1
    timers := r.2.1 ++ [Timer.mk r.2.2 (now + 1000) FAct.resetSwitch false false]
    nextId := r.2.2 + 1 }

/-- External SET of the shared switch: value updated, handler invoked. -/
def setSwitch (s : FanState) (now : Nat) (value : Bool) : FanState :=
  onSwitchSet { s with switchOn := value } now value

/-- `trigger.setOccupancy(v)` for the trigger at a list position. -/
def setOccupancyAt : List FTrigger → Nat → Bool → List FTrigger
  | [], _, _ => []
  | tr :: rest, 0, v => { tr with occupancy := v } :: rest
  | tr :: rest, Nat.succ n, v => tr :: setOccupancyAt rest n v

/-- Fire a timer in the fan-out variant.  The switch auto-reset uses `updateValue`,
which does not re-invoke the SET handler. -/
def fireF (s : FanState) (t : Timer FAct) : FanState :=
  let s1 := { s with timers := markFired s.timers t.id }
  match t.act with
  | FAct.decay i => { s1 with triggers := setOccupancyAt s1.triggers i false }
  | FAct.resetSwitch => { s1 with switchOn := false }

/-- The live timers of a fan-out state. -/
def liveListF (s : FanState) : List (Timer FAct) := s.timers.filter liveT

/-- Fire the earliest live timer of the fan-out state, if any. -/
def drainStepF (s : FanState) : FanState :=
  match pickEarliest (liveListF s) with
  | none => s
  | some t => fireF s t

example : ((setSwitch (initFan [("A", 3), ("B", 10)]) 0 true).triggers.map
    fun t => t.occupancy) = [true, true] := rfl

/-- C2 counterexample: with triggers A (3 s) and B (10 s), fire the shared switch at
t=0 and again at t=1 s.  The second firing cancels and reschedules *every* trigger's
decay, B included: B's original timer (id 1, due t=10 s) is cancelled and B's only
live decay timer now fires at t=11 s, refuting the claim that the second firing
leaves B's originally scheduled t≈10 decay unaffected. -/
theorem c2_counterexample_second_firing_moves_b :
    (((setSwitch (setSwitch (initFan [("A", 3), ("B", 10)]) 0 true) 1000 true).timers.filter
        fun t => liveT t && t.act == FAct.decay 1).map fun t => t.fireAt) = [11000] ∧
    (((setSwitch (setSwitch (initFan [("A", 3), ("B", 10)]) 0 true) 1000 true).timers.filter
        fun t => t.id == 1).map fun t => t.cancelled) = [true] ∧
    (11000 : Nat) ≠ 10000 :=
  ⟨rfl, rfl, by omega⟩

/-- C2 (amended): with triggers A (3 s) and B (10 s), one firing of the shared
switch at t=0 sets both occupancy signals true and schedules A's decay at t=3 s and
B's at t=10 s; draining the timers in due order reverts A at its decay (B still
true) and then B at its own, independently.  A second firing at t=1 s resets A's
decay to t=4 s and also cancels and reschedules B's decay, to t=11 s: the shared
handler cancels and reschedules every trigger's pending decay. -/
theorem c2_fanout_scenario_amended :
    ((setSwitch (initFan [("A", 3), ("B", 10)]) 0 true).triggers.map
      fun t => t.occupancy) = [true, true] ∧
    (((setSwitch (initFan [("A", 3), ("B", 10)]) 0 true).timers.filter
        fun t => liveT t && t.act == FAct.decay 0).map fun t => t.fireAt) = [3000] ∧
    (((setSwitch (initFan [("A", 3), ("B", 10)]) 0 true).timers.filter
        fun t => liveT t && t.act == FAct.decay 1).map fun t => t.fireAt) = [10000] ∧
    ((drainStepF (drainStepF (setSwitch (initFan [("A", 3), ("B", 10)]) 0 true))).triggers.map
      fun t => t.occupancy) = [false, true] ∧
    ((drainStepF (drainStepF (drainStepF
        (setSwitch (initFan [("A", 3), ("B", 10)]) 0 true)))).triggers.map
      fun t => t.occupancy) = [false, false] ∧
    ((setSwitch (setSwitch (initFan [("A", 3), ("B", 10)]) 0 true) 1000 true).triggers.map
      fun t => t.occupancy) = [true, true] ∧
    (((setSwitch (setSwitch (initFan [("A", 3), ("B", 10)]) 0 true) 1000 true).timers.filter
        fun t => liveT t && t.act == FAct.decay 0).map fun t => t.fireAt) = [4000] ∧
    (((setSwitch (setSwitch (initFan [("A", 3), ("B", 10)]) 0 true) 1000 true).timers.filter
        fun t => liveT t && t.act == FAct.decay 1).map fun t => t.fireAt) = [11000] :=
  ⟨rfl, rfl, rfl, rfl, rfl, rfl, rfl, rfl⟩

theorem clearT_mem_of_ne {α : Type} {ts : List (Timer α)} {i : Nat} {u : Timer α}
    (hu : u ∈ ts) (hne : u.id ≠ i) : u ∈ clearT ts i := by
  unfold clearT
  refine List.mem_map.mpr ⟨u, hu, ?_⟩
  rw [if_neg]
  intro hc
  exact hne hc.1

theorem clearOpt_mem_of {α : Type} {ts : List (Timer α)} {h : Option Nat} {u : Timer α}
    (hu : u ∈ ts) (hne : ∀ i, h = some i → u.id ≠ i) : u ∈ clearOpt ts h := by
  cases h with
  | none => exact hu
  | some i => exact clearT_mem_of_ne hu (hne i rfl)

theorem proc_nid_le (now : Nat) (ts : List FTrigger) :
    ∀ (idx : Nat) (tms : List (Timer FAct)) (nid : Nat),
      nid ≤ (procTriggers now ts idx tms nid).2.2 := by
  induction ts with
  | nil => intro idx tms nid; simp [procTriggers]
  | cons tr rest ih =>
    intro idx tms nid
    simp only [procTriggers]
    exact Nat.le_of_succ_le (ih (idx + 1) _ (nid + 1))

theorem proc_preserve (now : Nat) (ts : List FTrigger) :
    ∀ (idx : Nat) (tms : List (Timer FAct)) (nid : Nat) (u : Timer FAct),
      u ∈ tms → (∀ tr ∈ ts, ∀ j, tr.timer = some j → u.id ≠ j) →
      u ∈ (procTriggers now ts idx tms nid).2.1 := by
  induction ts with
  | nil => intro idx tms nid u hu _; simpa [procTriggers] using hu
  | cons tr rest ih =>
    intro idx tms nid u hu hne
    simp only [procTriggers]
    apply ih
    · apply List.mem_append_left
      apply clearOpt_mem_of hu
      intro i hi
      exact hne tr (List.mem_cons_self tr rest) i hi
    · intro tr2 htr2 j hj
      exact hne tr2 (List.mem_cons_of_mem tr htr2) j hj

theorem proc_dead (now : Nat) (ts : List FTrigger) :
    ∀ (idx : Nat) (tms : List (Timer FAct)) (nid j : Nat), j < nid →
      (∀ u ∈ tms, u.id = j → liveT u = false) →
      ∀ u ∈ (procTriggers now ts idx tms nid).2.1, u.id = j → liveT u = false := by
  induction ts with
  | nil =>
    intro idx tms nid j hj hd u hu hid
    exact hd u (by simpa [procTriggers] using hu) hid
  | cons tr rest ih =>
    intro idx tms nid j hj hd
    simp only [procTriggers]
    apply ih (idx + 1) _ (nid + 1) j (Nat.lt_succ_of_lt hj)
    intro u hu hid
    rcases List.mem_append.mp hu with hl | hr
    · exact clearOpt_dead_of_dead hd u hl hid
    · rcases List.mem_singleton.mp hr with rfl
      have hnj : nid = j := hid
      omega

theorem proc_cancels_handles (now : Nat) (ts : List FTrigger) :
    ∀ (idx : Nat) (tms : List (Timer FAct)) (nid : Nat),
      (∀ tr ∈ ts, ∀ j, tr.timer = some j → j < nid) →
      ∀ tr ∈ ts, ∀ j, tr.timer = some j →
        ∀ u ∈ (procTriggers now ts idx tms nid).2.1, u.id = j → liveT u = false := by
  induction ts with
  | nil => intro idx tms nid _ tr htr; cases htr
  | cons trh rest ih =>
    intro idx tms nid hH tr htr j hj
    rcases List.mem_cons.mp htr with rfl | htr2
    · have hjlt : j < nid := hH tr (List.mem_cons_self _ _) j hj
      simp only [procTriggers]
      apply proc_dead now rest (idx + 1) _ (nid + 1) j (Nat.lt_succ_of_lt hjlt)
      intro u hu hid
      rcases List.mem_append.mp hu with hl | hr
      · rw [hj] at hl
        exact clearT_id_dead hl hid
      · rcases List.mem_singleton.mp hr with rfl
        have hnj : nid = j := hid
        omega
    · have hH2 : ∀ tr2 ∈ rest, ∀ j2, tr2.timer = some j2 → j2 < nid + 1 := by
        intro tr2 htr3 j2 hj2
        exact Nat.lt_succ_of_lt (hH tr2 (List.mem_cons_of_mem _ htr3) j2 hj2)
      simp only [procTriggers]
      exact ih (idx + 1) _ (nid + 1) hH2 tr htr2 j hj

theorem proc_triggers_occ (now : Nat) (ts : List FTrigger) :
    ∀ (idx : Nat) (tms : List (Timer FAct)) (nid : Nat),
      (∀ tr ∈ ts, ∀ j, tr.timer = some j → j < nid) →
      ∀ tr ∈ (procTriggers now ts idx tms nid).1, tr.occupancy = true ∧
        ∃ j u, tr.timer = some j ∧ u ∈ (procTriggers now ts idx tms nid).2.1 ∧
          u.id = j ∧ liveT u = true ∧ u.fireAt = now + tr.delay * 1000 := by
  induction ts with
  | nil => intro idx tms nid _ tr htr; simp [procTriggers] at htr
  | cons trh rest ih =>
    intro idx tms nid hH tr htr
    simp only [procTriggers] at htr ⊢
    rcases List.mem_cons.mp htr with rfl | htr2
    · refine ⟨rfl, nid,
        Timer.mk nid (now + trh.delay * 1000) (FAct.decay idx) false false,
        rfl, ?_, rfl, rfl, rfl⟩
      apply proc_preserve
      · exact List.mem_append_right _ (List.mem_singleton.mpr rfl)
      · intro tr2 htr3 j2 hj2 heq
        have hlt := hH tr2 (List.mem_cons_of_mem _ htr3) j2 hj2
        have hnj : nid = j2 := heq
        omega
    · have hH2 : ∀ tr2 ∈ rest, ∀ j2, tr2.timer = some j2 → j2 < nid + 1 := by
        intro tr2 htr3 j2 hj2
        exact Nat.lt_succ_of_lt (hH tr2 (List.mem_cons_of_mem _ htr3) j2 hj2)
      exact ih (idx + 1) _ (nid + 1) hH2 tr htr2

/-- Decidable form of "the trigger's pending handle, if any, is a known timer id". -/
def handleBelowB (h : Option Nat) (n : Nat) : Bool :=
  match h with
  | some j => decide (j < n)
  | none => true

theorem handleBelowB_lt {h : Option Nat} {n j : Nat}
    (hb : handleBelowB h n = true) (hj : h = some j) : j < n := by
  subst hj
  simpa [handleBelowB] using hb

/-- C9: the fan-out variant's shared-switch SET handler ignores the value being set:
setting OFF runs the identical activation sequence as setting ON.  Concretely, after
a SET with value `false` every configured trigger's occupancy is true with a fresh
live decay timer firing `delay` seconds later, every previously pending decay timer
is cancelled, and a live switch auto-reset is scheduled 1 second out (firing it sets
only the switch off). -/
theorem c9_fan_set_handler_ignores_value (s : FanState) (now : Nat)
    (h : ∀ tr ∈ s.triggers, handleBelowB tr.timer s.nextId = true) :
    onSwitchSet s now false = onSwitchSet s now true ∧
    (∀ tr ∈ (onSwitchSet s now false).triggers, tr.occupancy = true ∧
      ∃ j u, tr.timer = some j ∧ u ∈ (onSwitchSet s now false).timers ∧ u.id = j ∧
        liveT u = true ∧ u.fireAt = now + tr.delay * 1000) ∧
    (∀ tr ∈ s.triggers, ∀ j, tr.timer = some j →
      ∀ u ∈ (onSwitchSet s now false).timers, u.id = j → liveT u = false) ∧
    (∃ r ∈ (onSwitchSet s now false).timers, r.act = FAct.resetSwitch ∧
      r.fireAt = now + 1000 ∧ liveT r = true) ∧
    (∀ (s2 : FanState) (t : Timer FAct), t.act = FAct.resetSwitch →
      (fireF s2 t).switchOn = false) := by
  have hH : ∀ tr ∈ s.triggers, ∀ j, tr.timer = some j → j < s.nextId :=
    fun tr htr j hj => handleBelowB_lt (h tr htr) hj
  refine ⟨rfl, ?_, ?_, ?_, ?_⟩
  · intro tr htr
    have hocc := proc_triggers_occ now s.triggers 0 s.timers s.nextId hH tr htr
    obtain ⟨ho, j, u, hj, hu, hid, hl, hfa⟩ := hocc
    exact ⟨ho, j, u, hj, List.mem_append_left _ hu, hid, hl, hfa⟩
  · intro tr htr j hj u hu hid
    rcases List.mem_append.mp hu with hl | hr
    · exact proc_cancels_handles now s.triggers 0 s.timers s.nextId hH tr htr j hj u hl hid
    · rcases List.mem_singleton.mp hr with rfl
      have hge := proc_nid_le now s.triggers 0 s.timers s.nextId
      have hlt := hH tr htr j hj
      have hnj : (procTriggers now s.triggers 0 s.timers s.nextId).2.2 = j := hid
      omega
  · exact ⟨Timer.mk (procTriggers now s.triggers 0 s.timers s.nextId).2.2 (now + 1000)
      FAct.resetSwitch false false,
      List.mem_append_right _ (List.mem_singleton.mpr rfl), rfl, rfl, rfl⟩
  · intro s2 t hact
    simp [fireF, hact]

/-- Reachable fan-out state: shared switch fired at t=0, both triggers armed. -/
def fanSample : FanState := setSwitch (initFan [("A", 3), ("B", 10)]) 0 true

theorem c9_fan_set_handler_ignores_value_witness :
    (∀ tr ∈ fanSample.triggers, handleBelowB tr.timer fanSample.nextId = true) ∧
    (onSwitchSet fanSample 1000 false = onSwitchSet fanSample 1000 true ∧
     (∀ tr ∈ (onSwitchSet fanSample 1000 false).triggers, tr.occupancy = true ∧
       ∃ j u, tr.timer = some j ∧ u ∈ (onSwitchSet fanSample 1000 false).timers ∧
         u.id = j ∧ liveT u = true ∧ u.fireAt = 1000 + tr.delay * 1000) ∧
     (∀ tr ∈ fanSample.triggers, ∀ j, tr.timer = some j →
       ∀ u ∈ (onSwitchSet fanSample 1000 false).timers, u.id = j → liveT u = false) ∧
     (∃ r ∈ (onSwitchSet fanSample 1000 false).timers, r.act = FAct.resetSwitch ∧
       r.fireAt = 1000 + 1000 ∧ liveT r = true) ∧
     (∀ (s2 : FanState) (t : Timer FAct), t.act = FAct.resetSwitch →
       (fireF s2 t).switchOn = false)) :=
  ⟨by decide, c9_fan_set_handler_ignores_value fanSample 1000 (by decide)⟩

/-- Every live decay timer of the simple state is tracked by the matching handle. -/
def handlesCoverS (s : SimpleState) : Prop :=
  ∀ t ∈ s.timers, liveT t = true →
    (t.act = SAct.decayMotion → s.motionTimer = some t.id) ∧
    (t.act = SAct.decayOccupancy → s.occupancyTimer = some t.id)

theorem liveS_clears_reset (s : SimpleState) (hc : handlesCoverS s) :
    ∀ t ∈ clearOpt (clearOpt s.timers s.motionTimer) s.occupancyTimer,
      liveT t = true → t.act = SAct.resetTrigger := by
  intro t ht hl
  have hp2 := clearOpt_live_pull ht hl
  have hp1 := clearOpt_live_pull hp2.1 hl
  have hcov := hc t hp1.1 hl
  cases hact : t.act with
  | decayMotion => exact absurd rfl (hp1.2 t.id (hcov.1 hact))
  | decayOccupancy => exact absurd rfl (hp2.2 t.id (hcov.2 hact))
  | resetTrigger => rfl

theorem clears_id_lt (s : SimpleState) (hf : ∀ t ∈ s.timers, t.id < s.nextId) :
    ∀ t ∈ clearOpt (clearOpt s.timers s.motionTimer) s.occupancyTimer,
      t.id < s.nextId := by
  intro t ht
  obtain ⟨v1, hv1, he1⟩ := clearOpt_mem_id ht
  obtain ⟨v2, hv2, he2⟩ := clearOpt_mem_id hv1
  rw [he1, he2]
  exact hf v2 hv2

theorem setTrigger_true_timers (s : SimpleState) (now : Nat) :
    (setTrigger s now true).timers =
      if s.stateful = false then
        clearOpt (clearOpt s.timers s.motionTimer) s.occupancyTimer ++
          [Timer.mk s.nextId (now + 1000) SAct.resetTrigger false false]
      else clearOpt (clearOpt s.timers s.motionTimer) s.occupancyTimer := by
  simp [setTrigger, onTrigger, clearHandleS, apply_ite SimpleState.timers]

/-- C6: in the simple variant a trigger-ON event sets motion and occupancy true and
cancels both pending decay timers (given the one-timer-per-signal tracking the spec
assumes, no live decay timer remains); it schedules no decay of its own — a new
timer exists iff the switch is non-stateful, and every new timer is the 1-second
auto-reset of the trigger switch itself; firing that auto-reset turns only the
trigger switch off, leaving both signal values unchanged. -/
theorem c6_simple_trigger_on (s : SimpleState) (now : Nat)
    (hc : handlesCoverS s) (hf : ∀ t ∈ s.timers, t.id < s.nextId) :
    (setTrigger s now true).motion = true ∧
    (setTrigger s now true).occupancy = true ∧
    (∀ t ∈ (setTrigger s now true).timers, liveT t = true → t.act = SAct.resetTrigger) ∧
    ((∃ t ∈ (setTrigger s now true).timers, s.nextId ≤ t.id) ↔ s.stateful = false) ∧
    (∀ t ∈ (setTrigger s now true).timers, s.nextId ≤ t.id →
      t.act = SAct.resetTrigger ∧ t.fireAt = now + 1000 ∧ liveT t = true) ∧
    (∀ (s2 : SimpleState) (t : Timer SAct), t.act = SAct.resetTrigger →
      (fireS s2 t).triggerOn = false ∧ (fireS s2 t).motion = s2.motion ∧
      (fireS s2 t).occupancy = s2.occupancy) := by
  have hmot : (setTrigger s now true).motion = true := by
    simp [setTrigger, onTrigger, clearHandleS, apply_ite SimpleState.motion]
  have hocc : (setTrigger s now true).occupancy = true := by
    simp [setTrigger, onTrigger, clearHandleS, apply_ite SimpleState.occupancy]
  refine ⟨hmot, hocc, ?_, ?_, ?_, ?_⟩
  · intro t ht hl
    rw [setTrigger_true_timers] at ht
    by_cases hst : s.stateful = false
    · rw [if_pos hst] at ht
      rcases List.mem_append.mp ht with hml | hmr
      · exact liveS_clears_reset s hc t hml hl
      · rcases List.mem_singleton.mp hmr with rfl
        rfl
    · rw [if_neg hst] at ht
      exact liveS_clears_reset s hc t ht hl
  · constructor
    · rintro ⟨t, ht, hge⟩
      rw [setTrigger_true_timers] at ht
      by_contra hst
      rw [if_neg hst] at ht
      have := clears_id_lt s hf t ht
      omega
    · intro hst
      rw [setTrigger_true_timers, if_pos hst]
      exact ⟨Timer.mk s.nextId (now + 1000) SAct.resetTrigger false false,
        List.mem_append_right _ (List.mem_singleton.mpr rfl), Nat.le_refl _⟩
  · intro t ht hge
    rw [setTrigger_true_timers] at ht
    by_cases hst : s.stateful = false
    · rw [if_pos hst] at ht
      rcases List.mem_append.mp ht with hml | hmr
      · have := clears_id_lt s hf t hml
        omega
      · rcases List.mem_singleton.mp hmr with rfl
        exact ⟨rfl, rfl, rfl⟩
    · rw [if_neg hst] at ht
      have := clears_id_lt s hf t ht
      omega
  · intro s2 t hact
    refine ⟨?_, ?_, ?_⟩ <;> simp [fireS, hact, setTrigger, onTrigger]

/-- Reachable simple-variant state: trigger OFF at t=0 armed both decay timers. -/
def simpleSample : SimpleState := setTrigger (initSimple cfgDefault) 0 false

theorem c6_simple_trigger_on_witness :
    (handlesCoverS simpleSample ∧ (∀ t ∈ simpleSample.timers, t.id < simpleSample.nextId)) ∧
    ((setTrigger simpleSample 500 true).motion = true ∧
     (setTrigger simpleSample 500 true).occupancy = true ∧
     (∀ t ∈ (setTrigger simpleSample 500 true).timers, liveT t = true →
       t.act = SAct.resetTrigger) ∧
     ((∃ t ∈ (setTrigger simpleSample 500 true).timers, simpleSample.nextId ≤ t.id) ↔
       simpleSample.stateful = false) ∧
     (∀ t ∈ (setTrigger simpleSample 500 true).timers, simpleSample.nextId ≤ t.id →
       t.act = SAct.resetTrigger ∧ t.fireAt = 500 + 1000 ∧ liveT t = true) ∧
     (∀ (s2 : SimpleState) (t : Timer SAct), t.act = SAct.resetTrigger →
       (fireS s2 t).triggerOn = false ∧ (fireS s2 t).motion = s2.motion ∧
       (fireS s2 t).occupancy = s2.occupancy)) :=
  ⟨⟨by unfold handlesCoverS; decide, by decide⟩,
   c6_simple_trigger_on simpleSample 500 (by unfold handlesCoverS; decide) (by decide)⟩

/-! ## Round-trip analysis for the simple variant (claim C5)

Traces interleave external SET events with timer firings; `drainS` then lets the
remaining timers fire to quiescence.  A weight measure over live timers (3 for the
auto-reset, which re-enters `onTrigger` and schedules two decays when it fires, 1
for a decay) bounds the number of firings needed. -/

/-- Weight of a live timer for the termination measure of the simple variant. -/
def weight : SAct → Nat
  | SAct.resetTrigger => 3
  | _ => 1

theorem weight_pos : ∀ a : SAct, 1 ≤ weight a := by
  intro a
  cases a <;> simp [weight]

/-- Sum of live-timer weights of a timer list. -/
def measL {α : Type} (w : α → Nat) (ts : List (Timer α)) : Nat :=
  ((ts.filter liveT).map fun t => w t.act).sum

/-- Sum of weights of live timers with a given id. -/
def killedSum {α : Type} (w : α → Nat) (ts : List (Timer α)) (i : Nat) : Nat :=
  ((ts.filter fun u => liveT u && u.id == i).map fun u => w u.act).sum

theorem measL_cons {α : Type} (w : α → Nat) (x : Timer α) (l : List (Timer α)) :
    measL w (x :: l) = (if liveT x = true then w x.act else 0) + measL w l := by
  simp only [measL, List.filter_cons]
  by_cases h : liveT x = true
  · rw [if_pos h, if_pos h, List.map_cons, List.sum_cons]
  · rw [if_neg h, if_neg h, Nat.zero_add]

theorem killedSum_cons {α : Type} (w : α → Nat) (x : Timer α) (l : List (Timer α)) (i : Nat) :
    killedSum w (x :: l) i =
      (if (liveT x && x.id == i) = true then w x.act else 0) + killedSum w l i := by
  simp only [killedSum, List.filter_cons]
  by_cases h : (liveT x && x.id == i) = true
  · rw [if_pos h, if_pos h, List.map_cons, List.sum_cons]
  · rw [if_neg h, if_neg h, Nat.zero_add]

theorem measL_markFired {α : Type} (w : α → Nat) (ts : List (Timer α)) (i : Nat) :
    measL w (markFired ts i) + killedSum w ts i = measL w ts := by
  induction ts with
  | nil => rfl
  | cons u rest ih =>
    have hmf : markFired (u :: rest) i =
        (if u.id = i then { u with fired := true } else u) :: markFired rest i := rfl
    rw [hmf, measL_cons, killedSum_cons, measL_cons]
    by_cases hi : u.id = i
    · rw [if_pos hi]
      have hc1 : ¬ liveT { u with fired := true } = true := by simp [liveT]
      rw [if_neg hc1]
      by_cases hlv : liveT u = true
      · have hc2 : (liveT u && u.id == i) = true := by simp [hlv, hi]
        rw [if_pos hc2, if_pos hlv]
        omega
      · have hc2 : ¬ (liveT u && u.id == i) = true := by
          rw [Bool.and_eq_true]
          intro hcc
          exact hlv hcc.1
        rw [if_neg hc2, if_neg hlv]
        omega
    · rw [if_neg hi]
      have hc2 : ¬ (liveT u && u.id == i) = true := by
        rw [Bool.and_eq_true]
        intro hcc
        exact hi (by simpa using hcc.2)
      rw [if_neg hc2]
      omega

theorem measL_append {α : Type} (w : α → Nat) (l1 l2 : List (Timer α)) :
    measL w (l1 ++ l2) = measL w l1 + measL w l2 := by
  simp [measL, List.filter_append]

theorem measL_zero_live {α : Type} (w : α → Nat) (hw : ∀ a, 1 ≤ w a) (ts : List (Timer α))
    (h : measL w ts = 0) : ts.filter liveT = [] := by
  induction ts with
  | nil => rfl
  | cons u rest ih =>
    rw [measL_cons] at h
    by_cases hlv : liveT u = true
    · rw [if_pos hlv] at h
      have := hw u.act
      omega
    · rw [if_neg hlv] at h
      simp only [List.filter_cons, hlv]
      simp only [Bool.false_eq_true, if_false]
      exact ih (by omega)

theorem killedSum_le {α : Type} (w : α → Nat) {ts : List (Timer α)} {t : Timer α}
    (ht : t ∈ ts) (hl : liveT t = true) : w t.act ≤ killedSum w ts t.id := by
  apply List.single_le_sum (fun x _ => Nat.zero_le x)
  exact List.mem_map.mpr ⟨t, List.mem_filter.mpr ⟨ht, by simp [hl]⟩, rfl⟩

theorem pickEarliest_eq_none {α : Type} (l : List (Timer α)) :
    pickEarliest l = none ↔ l = [] := by
  cases l with
  | nil => simp [pickEarliest]
  | cons t ts =>
    simp only [pickEarliest]
    cases hp : pickEarliest ts with
    | none => simp
    | some u =>
      by_cases he : earlierT u t = true
      · simp [he]
      · simp [he]

theorem pickEarliest_mem {α : Type} {l : List (Timer α)} {t : Timer α}
    (h : pickEarliest l = some t) : t ∈ l := by
  induction l with
  | nil => cases h
  | cons a as ih =>
    simp only [pickEarliest] at h
    cases hq : pickEarliest as with
    | none =>
      simp only [hq] at h
      rw [Option.some_inj] at h
      subst h
      exact List.mem_cons_self a as
    | some u =>
      simp only [hq] at h
      by_cases he : earlierT u a = true
      · rw [if_pos he, Option.some_inj] at h
        subst h
        exact List.mem_cons_of_mem a (ih hq)
      · rw [if_neg he, Option.some_inj] at h
        subst h
        exact List.mem_cons_self a as

/-- Termination measure of the simple variant: total live weight. -/
def measureS (s : SimpleState) : Nat := measL weight s.timers

theorem measureS_drainStep_lt (s : SimpleState) (hne : liveListS s ≠ []) :
    measureS (drainStepS s) < measureS s := by
  unfold drainStepS
  cases hp : pickEarliest (liveListS s) with
  | none => exact absurd ((pickEarliest_eq_none _).mp hp) hne
  | some t =>
    have htmem := pickEarliest_mem hp
    have htts : t ∈ s.timers := (List.mem_filter.mp htmem).1
    have htl : liveT t = true := (List.mem_filter.mp htmem).2
    obtain ⟨tid, tfa, tact, tc, tf⟩ := t
    have hkill : weight tact ≤ killedSum weight s.timers tid := killedSum_le weight htts htl
    have heq := measL_markFired weight s.timers tid
    cases tact with
    | decayMotion =>
      have hk1 : 1 ≤ killedSum weight s.timers tid := hkill
      show measL weight (markFired s.timers tid) < measL weight s.timers
      omega
    | decayOccupancy =>
      have hk1 : 1 ≤ killedSum weight s.timers tid := hkill
      show measL weight (markFired s.timers tid) < measL weight s.timers
      omega
    | resetTrigger =>
      have hk3 : 3 ≤ killedSum weight s.timers tid := hkill
      show measL weight ((markFired s.timers tid ++
          [Timer.mk s.nextId (tfa + s.motionDelay * 1000) SAct.decayMotion false false]) ++
          [Timer.mk (s.nextId + 1) (tfa + s.occupancyDelay * 1000)
            SAct.decayOccupancy false false]) <
        measL weight s.timers
      rw [measL_append, measL_append]
      have h1 : measL weight
          [Timer.mk s.nextId (tfa + s.motionDelay * 1000) SAct.decayMotion false false] = 1 := rfl
      have h2 : measL weight
          [Timer.mk (s.nextId + 1) (tfa + s.occupancyDelay * 1000)
            SAct.decayOccupancy false false] = 1 := rfl
      rw [h1, h2]
      omega

theorem drainS_live_nil : ∀ (n : Nat) (s : SimpleState), measureS s ≤ n →
    liveListS (drainS s n) = [] := by
  intro n
  induction n with
  | zero =>
    intro s h
    exact measL_zero_live weight weight_pos s.timers (Nat.le_zero.mp h)
  | succ n ih =>
    intro s h
    by_cases hne : liveListS s = []
    · have hds : drainStepS s = s := by
        unfold drainStepS
        rw [hne]
        rfl
      show liveListS (drainS (drainStepS s) n) = []
      rw [hds]
      apply ih
      have h0 : measureS s = 0 := by
        unfold measureS measL
        unfold liveListS at hne
        rw [hne]
        rfl
      omega
    · show liveListS (drainS (drainStepS s) n) = []
      apply ih
      have := measureS_drainStep_lt s hne
      omega

/-- Well-formed timer bookkeeping: ids below the allocator and pairwise distinct. -/
def wfIds (s : SimpleState) : Prop :=
  (∀ t ∈ s.timers, t.id < s.nextId) ∧ s.timers.Pairwise fun a b => a.id ≠ b.id

theorem pairwise_id_unique {α : Type} {ts : List (Timer α)}
    (hp : ts.Pairwise fun a b => a.id ≠ b.id) :
    ∀ u ∈ ts, ∀ v ∈ ts, u.id = v.id → u = v := by
  induction ts with
  | nil => intro u hu; cases hu
  | cons x rest ih =>
    have hx := List.pairwise_cons.mp hp
    intro u hu v hv he
    rcases List.mem_cons.mp hu with rfl | hu2
    · rcases List.mem_cons.mp hv with rfl | hv2
      · rfl
      · exact absurd he (hx.1 v hv2)
    · rcases List.mem_cons.mp hv with rfl | hv2
      · exact ((hx.1 u hu2) he.symm).elim
      · exact ih hx.2 u hu2 v hv2 he

theorem markFired_mem_of_ne {α : Type} {ts : List (Timer α)} {i : Nat} {u : Timer α}
    (hu : u ∈ ts) (hne : u.id ≠ i) : u ∈ markFired ts i :=
  List.mem_map.mpr ⟨u, hu, by rw [if_neg hne]⟩

theorem markFired_mem_id {α : Type} {ts : List (Timer α)} {i : Nat} {u : Timer α}
    (hu : u ∈ markFired ts i) : ∃ v ∈ ts, u.id = v.id := by
  unfold markFired at hu
  rcases List.mem_map.mp hu with ⟨v, hv, heq⟩
  by_cases hc : v.id = i
  · rw [if_pos hc] at heq
    exact ⟨v, hv, by rw [← heq]⟩
  · rw [if_neg hc] at heq
    exact ⟨v, hv, by rw [← heq]⟩

theorem pairwise_id_ne_map {α : Type} {ts : List (Timer α)} (f : Timer α → Timer α)
    (hid : ∀ a, (f a).id = a.id) (hp : ts.Pairwise fun a b => a.id ≠ b.id) :
    (ts.map f).Pairwise fun a b => a.id ≠ b.id :=
  List.Pairwise.map f (fun a b hab => by rw [hid a, hid b]; exact hab) hp

theorem pairwise_markFired {α : Type} {ts : List (Timer α)} (i : Nat)
    (hp : ts.Pairwise fun a b => a.id ≠ b.id) :
    (markFired ts i).Pairwise fun a b => a.id ≠ b.id := by
  apply pairwise_id_ne_map _ _ hp
  intro a
  by_cases h : a.id = i
  · rw [if_pos h]
  · rw [if_neg h]

theorem pairwise_clearOpt {α : Type} {ts : List (Timer α)} (h : Option Nat)
    (hp : ts.Pairwise fun a b => a.id ≠ b.id) :
    (clearOpt ts h).Pairwise fun a b => a.id ≠ b.id := by
  cases h with
  | none => exact hp
  | some i =>
    apply pairwise_id_ne_map _ _ hp
    intro a
    by_cases hc : a.id = i ∧ a.fired = false
    · rw [if_pos hc]
    · rw [if_neg hc]

theorem wfL_append_fresh {α : Type} {ts : List (Timer α)} {n : Nat}
    (hf : ∀ t ∈ ts, t.id < n) (hp : ts.Pairwise fun a b => a.id ≠ b.id)
    (x : Timer α) (hx : x.id = n) :
    (∀ t ∈ ts ++ [x], t.id < n + 1) ∧
      (ts ++ [x]).Pairwise fun a b => a.id ≠ b.id := by
  constructor
  · intro t ht
    rcases List.mem_append.mp ht with h1 | h1
    · exact Nat.lt_succ_of_lt (hf t h1)
    · rcases List.mem_singleton.mp h1 with rfl
      omega
  · rw [List.pairwise_append]
    refine ⟨hp, List.pairwise_singleton _ _, ?_⟩
    intro a ha b hb
    rcases List.mem_singleton.mp hb with rfl
    have := hf a ha
    omega

theorem setTrigger_true_nextId (s : SimpleState) (now : Nat) :
    (setTrigger s now true).nextId =
      if s.stateful = false then s.nextId + 1 else s.nextId := by
  simp [setTrigger, onTrigger, clearHandleS, apply_ite SimpleState.nextId]

theorem wf_setTrigger (s : SimpleState) (now : Nat) (v : Bool) (h : wfIds s) :
    wfIds (setTrigger s now v) := by
  cases v with
  | false =>
    have h1 := wfL_append_fresh h.1 h.2
      (Timer.mk s.nextId (now + s.motionDelay * 1000) SAct.decayMotion false false) rfl
    have h2 := wfL_append_fresh h1.1 h1.2
      (Timer.mk (s.nextId + 1) (now + s.occupancyDelay * 1000)
        SAct.decayOccupancy false false) rfl
    exact h2
  | true =>
    have hcf : ∀ t ∈ clearOpt (clearOpt s.timers s.motionTimer) s.occupancyTimer,
        t.id < s.nextId := clears_id_lt s h.1
    have hcp : (clearOpt (clearOpt s.timers s.motionTimer) s.occupancyTimer).Pairwise
        fun a b => a.id ≠ b.id := pairwise_clearOpt _ (pairwise_clearOpt _ h.2)
    constructor
    · intro t ht
      rw [setTrigger_true_timers] at ht
      rw [setTrigger_true_nextId]
      by_cases hst : s.stateful = false
      · rw [if_pos hst] at ht
        rw [if_pos hst]
        rcases List.mem_append.mp ht with h1 | h1
        · exact Nat.lt_succ_of_lt (hcf t h1)
        · rcases List.mem_singleton.mp h1 with rfl
          exact Nat.lt_succ_self _
      · rw [if_neg hst] at ht
        rw [if_neg hst]
        exact hcf t ht
    · rw [setTrigger_true_timers]
      by_cases hst : s.stateful = false
      · rw [if_pos hst]
        exact (wfL_append_fresh hcf hcp _ rfl).2
      · rw [if_neg hst]
        exact hcp

theorem wf_fireS (s : SimpleState) (t : Timer SAct) (h : wfIds s) : wfIds (fireS s t) := by
  obtain ⟨tid, tfa, tact, tc, tf⟩ := t
  have hmf : wfIds { s with timers := markFired s.timers tid } := by
    constructor
    · intro u hu
      obtain ⟨v, hv, he⟩ := markFired_mem_id hu
      rw [he]
      exact h.1 v hv
    · exact pairwise_markFired tid h.2
  cases tact with
  | decayMotion => exact hmf
  | decayOccupancy => exact hmf
  | resetTrigger => exact wf_setTrigger _ tfa false hmf

theorem wf_drainStepS (s : SimpleState) (h : wfIds s) : wfIds (drainStepS s) := by
  unfold drainStepS
  cases hpk : pickEarliest (liveListS s) with
  | none => exact h
  | some t => exact wf_fireS s t h

/-- A live timer with the given action exists. -/
def hasLiveS (s : SimpleState) (a : SAct) : Prop :=
  ∃ t ∈ s.timers, liveT t = true ∧ t.act = a

/-- Invariant forcing motion to end false after draining: motion is already false, or
a live motion decay is pending, or a live auto-reset (which schedules one) is. -/
def pInv (s : SimpleState) : Prop :=
  s.motion = false ∨ hasLiveS s SAct.decayMotion ∨ hasLiveS s SAct.resetTrigger

/-- Invariant forcing occupancy to end false after draining. -/
def qInv (s : SimpleState) : Prop :=
  s.occupancy = false ∨ hasLiveS s SAct.decayOccupancy ∨ hasLiveS s SAct.resetTrigger

theorem pInv_drainStepS (s : SimpleState) (hw : wfIds s) (hp : pInv s) :
    pInv (drainStepS s) := by
  unfold drainStepS
  cases hpk : pickEarliest (liveListS s) with
  | none => exact hp
  | some t =>
    have htmem := pickEarliest_mem hpk
    have htts : t ∈ s.timers := (List.mem_filter.mp htmem).1
    obtain ⟨tid, tfa, tact, tc, tf⟩ := t
    cases tact with
    | decayMotion => exact Or.inl rfl
    | decayOccupancy =>
      rcases hp with hm | hdm | hrt
      · exact Or.inl hm
      · obtain ⟨u, hu, hul, hua⟩ := hdm
        have hne : u.id ≠ tid := by
          intro he
          have hequ := pairwise_id_unique hw.2 u hu _ htts he
          rw [hequ] at hua
          cases hua
        exact Or.inr (Or.inl ⟨u, markFired_mem_of_ne hu hne, hul, hua⟩)
      · obtain ⟨u, hu, hul, hua⟩ := hrt
        have hne : u.id ≠ tid := by
          intro he
          have hequ := pairwise_id_unique hw.2 u hu _ htts he
          rw [hequ] at hua
          cases hua
        exact Or.inr (Or.inr ⟨u, markFired_mem_of_ne hu hne, hul, hua⟩)
    | resetTrigger =>
      exact Or.inr (Or.inl
        ⟨Timer.mk s.nextId (tfa + s.motionDelay * 1000) SAct.decayMotion false false,
         List.mem_append_left _ (List.mem_append_right _ (List.mem_singleton.mpr rfl)),
         rfl, rfl⟩)

theorem qInv_drainStepS (s : SimpleState) (hw : wfIds s) (hq : qInv s) :
    qInv (drainStepS s) := by
  unfold drainStepS
  cases hpk : pickEarliest (liveListS s) with
  | none => exact hq
  | some t =>
    have htmem := pickEarliest_mem hpk
    have htts : t ∈ s.timers := (List.mem_filter.mp htmem).1
    obtain ⟨tid, tfa, tact, tc, tf⟩ := t
    cases tact with
    | decayOccupancy => exact Or.inl rfl
    | decayMotion =>
      rcases hq with hm | hdo | hrt
      · exact Or.inl hm
      · obtain ⟨u, hu, hul, hua⟩ := hdo
        have hne : u.id ≠ tid := by
          intro he
          have hequ := pairwise_id_unique hw.2 u hu _ htts he
          rw [hequ] at hua
          cases hua
        exact Or.inr (Or.inl ⟨u, markFired_mem_of_ne hu hne, hul, hua⟩)
      · obtain ⟨u, hu, hul, hua⟩ := hrt
        have hne : u.id ≠ tid := by
          intro he
          have hequ := pairwise_id_unique hw.2 u hu _ htts he
          rw [hequ] at hua
          cases hua
        exact Or.inr (Or.inr ⟨u, markFired_mem_of_ne hu hne, hul, hua⟩)
    | resetTrigger =>
      exact Or.inr (Or.inl
        ⟨Timer.mk (s.nextId + 1) (tfa + s.occupancyDelay * 1000)
           SAct.decayOccupancy false false,
         List.mem_append_right _ (List.mem_singleton.mpr rfl), rfl, rfl⟩)

/-- One observable step of the simple variant: an external SET of the trigger switch
at a given time, or the event loop firing the earliest pending timer. -/
inductive SStep : Type where
  | ev : Nat → Bool → SStep
  | tick : SStep
deriving DecidableEq

/-- Apply one step. -/
def runStep (s : SimpleState) : SStep → SimpleState
  | SStep.ev now v => setTrigger s now v
  | SStep.tick => drainStepS s

/-- Run a whole trace. -/
def runTrace (s : SimpleState) (l : List SStep) : SimpleState :=
  l.foldl runStep s

/-- The external SET values of a trace, in order. -/
def evVals (l : List SStep) : List Bool :=
  l.filterMap fun st =>
    match st with
    | SStep.ev _ v => some v
    | SStep.tick => none

theorem wf_init (c : SimpleConfig) : wfIds (initSimple c) :=
  ⟨fun t ht => absurd ht (List.not_mem_nil t), List.Pairwise.nil⟩

theorem wf_runStep (s : SimpleState) (st : SStep) (h : wfIds s) : wfIds (runStep s st) := by
  cases st with
  | ev now v => exact wf_setTrigger s now v h
  | tick => exact wf_drainStepS s h

theorem wf_runTrace : ∀ (l : List SStep) (s : SimpleState), wfIds s → wfIds (runTrace s l) := by
  intro l
  induction l with
  | nil => intro s h; exact h
  | cons a as ih => intro s h; exact ih (runStep s a) (wf_runStep s a h)

theorem setTrigger_stateful (s : SimpleState) (now : Nat) (v : Bool) :
    (setTrigger s now v).stateful = s.stateful := by
  cases v with
  | false => rfl
  | true => simp [setTrigger, onTrigger, clearHandleS, apply_ite SimpleState.stateful]

theorem fireS_stateful (s : SimpleState) (t : Timer SAct) :
    (fireS s t).stateful = s.stateful := by
  obtain ⟨tid, tfa, tact, tc, tf⟩ := t
  cases tact with
  | decayMotion => rfl
  | decayOccupancy => rfl
  | resetTrigger => exact setTrigger_stateful _ tfa false

theorem drainStepS_stateful (s : SimpleState) : (drainStepS s).stateful = s.stateful := by
  unfold drainStepS
  cases hpk : pickEarliest (liveListS s) with
  | none => rfl
  | some t => exact fireS_stateful s t

theorem runStep_stateful (s : SimpleState) (st : SStep) :
    (runStep s st).stateful = s.stateful := by
  cases st with
  | ev now v => exact setTrigger_stateful s now v
  | tick => exact drainStepS_stateful s

theorem runTrace_stateful : ∀ (l : List SStep) (s : SimpleState),
    (runTrace s l).stateful = s.stateful := by
  intro l
  induction l with
  | nil => intro s; rfl
  | cons a as ih =>
    intro s
    show (runTrace (runStep s a) as).stateful = s.stateful
    rw [ih (runStep s a), runStep_stateful]

theorem inv_ev_false (s : SimpleState) (now : Nat) :
    pInv (setTrigger s now false) ∧ qInv (setTrigger s now false) := by
  constructor
  · exact Or.inr (Or.inl
      ⟨Timer.mk s.nextId (now + s.motionDelay * 1000) SAct.decayMotion false false,
       List.mem_append_left _ (List.mem_append_right _ (List.mem_singleton.mpr rfl)),
       rfl, rfl⟩)
  · exact Or.inr (Or.inl
      ⟨Timer.mk (s.nextId + 1) (now + s.occupancyDelay * 1000)
         SAct.decayOccupancy false false,
       List.mem_append_right _ (List.mem_singleton.mpr rfl), rfl, rfl⟩)

theorem inv_ev_true (s : SimpleState) (now : Nat) (hst : s.stateful = false) :
    pInv (setTrigger s now true) ∧ qInv (setTrigger s now true) := by
  have hmem : Timer.mk s.nextId (now + 1000) SAct.resetTrigger false false ∈
      (setTrigger s now true).timers := by
    rw [setTrigger_true_timers, if_pos hst]
    exact List.mem_append_right _ (List.mem_singleton.mpr rfl)
  exact ⟨Or.inr (Or.inr ⟨_, hmem, rfl, rfl⟩), Or.inr (Or.inr ⟨_, hmem, rfl, rfl⟩)⟩

theorem inv_runTrace : ∀ (c : SimpleConfig) (l : List SStep),
    (jsOrBool c.stateful = false ∨ (evVals l).getLast? ≠ some true) →
    pInv (runTrace (initSimple c) l) ∧ qInv (runTrace (initSimple c) l) := by
  intro c l
  induction l using List.reverseRecOn with
  | nil => intro _; exact ⟨Or.inl rfl, Or.inl rfl⟩
  | append_singleton l2 st ih =>
    intro hok
    have hrt : runTrace (initSimple c) (l2 ++ [st]) =
        runStep (runTrace (initSimple c) l2) st := by
      unfold runTrace
      rw [List.foldl_append]
      rfl
    rw [hrt]
    cases st with
    | tick =>
      have hev : evVals (l2 ++ [SStep.tick]) = evVals l2 := by
        unfold evVals
        rw [List.filterMap_append]
        simp
      have hok2 : jsOrBool c.stateful = false ∨ (evVals l2).getLast? ≠ some true := by
        rcases hok with h | h
        · exact Or.inl h
        · right
          rw [hev] at h
          exact h
      have hw := wf_runTrace l2 (initSimple c) (wf_init c)
      have hi := ih hok2
      exact ⟨pInv_drainStepS _ hw hi.1, qInv_drainStepS _ hw hi.2⟩
    | ev now v =>
      cases v with
      | false => exact inv_ev_false _ now
      | true =>
        have h1 : evVals (l2 ++ [SStep.ev now true]) = evVals l2 ++ [true] := by
          unfold evVals
          rw [List.filterMap_append]
          rfl
        have hst : jsOrBool c.stateful = false := by
          rcases hok with h | h
          · exact h
          · exfalso
            apply h
            rw [h1]
            exact List.getLast?_concat _
        have hst2 : (runTrace (initSimple c) l2).stateful = false := by
          rw [runTrace_stateful]
          exact hst
        exact inv_ev_true _ now hst2

theorem motion_false_of_pInv : ∀ (n : Nat) (s : SimpleState), wfIds s → pInv s →
    measureS s ≤ n → (drainS s n).motion = false := by
  intro n
  induction n with
  | zero =>
    intro s hw hp h
    have hlv : liveListS s = [] := measL_zero_live weight weight_pos s.timers (Nat.le_zero.mp h)
    rcases hp with hm | hdm | hrt
    · exact hm
    · obtain ⟨t, ht, hl, -⟩ := hdm
      have hmem : t ∈ liveListS s := List.mem_filter.mpr ⟨ht, hl⟩
      rw [hlv] at hmem
      cases hmem
    · obtain ⟨t, ht, hl, -⟩ := hrt
      have hmem : t ∈ liveListS s := List.mem_filter.mpr ⟨ht, hl⟩
      rw [hlv] at hmem
      cases hmem
  | succ n ih =>
    intro s hw hp h
    by_cases hne : liveListS s = []
    · have hds : drainStepS s = s := by
        unfold drainStepS
        rw [hne]
        rfl
      show (drainS (drainStepS s) n).motion = false
      rw [hds]
      apply ih s hw hp
      have h0 : measureS s = 0 := by
        unfold measureS measL
        unfold liveListS at hne
        rw [hne]
        rfl
      omega
    · show (drainS (drainStepS s) n).motion = false
      apply ih (drainStepS s) (wf_drainStepS s hw) (pInv_drainStepS s hw hp)
      have := measureS_drainStep_lt s hne
      omega

theorem occupancy_false_of_qInv : ∀ (n : Nat) (s : SimpleState), wfIds s → qInv s →
    measureS s ≤ n → (drainS s n).occupancy = false := by
  intro n
  induction n with
  | zero =>
    intro s hw hq h
    have hlv : liveListS s = [] := measL_zero_live weight weight_pos s.timers (Nat.le_zero.mp h)
    rcases hq with hm | hdo | hrt
    · exact hm
    · obtain ⟨t, ht, hl, -⟩ := hdo
      have hmem : t ∈ liveListS s := List.mem_filter.mpr ⟨ht, hl⟩
      rw [hlv] at hmem
      cases hmem
    · obtain ⟨t, ht, hl, -⟩ := hrt
      have hmem : t ∈ liveListS s := List.mem_filter.mpr ⟨ht, hl⟩
      rw [hlv] at hmem
      cases hmem
  | succ n ih =>
    intro s hw hq h
    by_cases hne : liveListS s = []
    · have hds : drainStepS s = s := by
        unfold drainStepS
        rw [hne]
        rfl
      show (drainS (drainStepS s) n).occupancy = false
      rw [hds]
      apply ih s hw hq
      have h0 : measureS s = 0 := by
        unfold measureS measL
        unfold liveListS at hne
        rw [hne]
        rfl
      omega
    · show (drainS (drainStepS s) n).occupancy = false
      apply ih (drainStepS s) (wf_drainStepS s hw) (qInv_drainStepS s hw hq)
      have := measureS_drainStep_lt s hne
      omega

/-- C5 counterexample: with a stateful trigger switch, the single-event trace
"external SET ON at t=0" reaches quiescence (zero live timers: the ON handler
cancels and schedules nothing when `stateful` is true) with motion and occupancy
still true — refuting the claim that after any sequence of trigger events, once all
scheduled delays are waited out, every signal is false. -/
theorem c5_counterexample_stateful_on :
    (drainS (runTrace (initSimple (SimpleConfig.mk (some true) none none)) [SStep.ev 0 true])
      (measureS (runTrace (initSimple (SimpleConfig.mk (some true) none none))
        [SStep.ev 0 true]))).motion = true ∧
    (drainS (runTrace (initSimple (SimpleConfig.mk (some true) none none)) [SStep.ev 0 true])
      (measureS (runTrace (initSimple (SimpleConfig.mk (some true) none none))
        [SStep.ev 0 true]))).occupancy = true ∧
    liveListS (drainS (runTrace (initSimple (SimpleConfig.mk (some true) none none))
      [SStep.ev 0 true])
      (measureS (runTrace (initSimple (SimpleConfig.mk (some true) none none))
        [SStep.ev 0 true]))) = [] :=
  ⟨rfl, rfl, rfl⟩

/-- C5 (amended): for any interleaving of trigger SET events and timer firings, if
the switch is non-stateful or the last external SET is a trigger-OFF, then waiting
out all scheduled delays (draining the live timers, whose total weight bounds the
firings needed) leaves motion and occupancy false with zero live timers. -/
theorem c5_roundtrip_amended (c : SimpleConfig) (l : List SStep)
    (hok : jsOrBool c.stateful = false ∨ (evVals l).getLast? ≠ some true) :
    (drainS (runTrace (initSimple c) l) (measureS (runTrace (initSimple c) l))).motion
        = false ∧
    (drainS (runTrace (initSimple c) l) (measureS (runTrace (initSimple c) l))).occupancy
        = false ∧
    liveListS (drainS (runTrace (initSimple c) l)
        (measureS (runTrace (initSimple c) l))) = [] := by
  have hw := wf_runTrace l (initSimple c) (wf_init c)
  have hinv := inv_runTrace c l hok
  exact ⟨motion_false_of_pInv _ _ hw hinv.1 (Nat.le_refl _),
    occupancy_false_of_qInv _ _ hw hinv.2 (Nat.le_refl _),
    drainS_live_nil _ _ (Nat.le_refl _)⟩

theorem c5_roundtrip_amended_witness :
    (jsOrBool cfgDefault.stateful = false ∨
      (evVals [SStep.ev 0 true, SStep.tick, SStep.ev 2000 false]).getLast? ≠ some true) ∧
    ((drainS (runTrace (initSimple cfgDefault) [SStep.ev 0 true, SStep.tick, SStep.ev 2000 false])
        (measureS (runTrace (initSimple cfgDefault)
          [SStep.ev 0 true, SStep.tick, SStep.ev 2000 false]))).motion = false ∧
     (drainS (runTrace (initSimple cfgDefault) [SStep.ev 0 true, SStep.tick, SStep.ev 2000 false])
        (measureS (runTrace (initSimple cfgDefault)
          [SStep.ev 0 true, SStep.tick, SStep.ev 2000 false]))).occupancy = false ∧
     liveListS (drainS (runTrace (initSimple cfgDefault)
          [SStep.ev 0 true, SStep.tick, SStep.ev 2000 false])
        (measureS (runTrace (initSimple cfgDefault)
          [SStep.ev 0 true, SStep.tick, SStep.ev 2000 false]))) = []) :=
  ⟨by decide, c5_roundtrip_amended cfgDefault
    [SStep.ev 0 true, SStep.tick, SStep.ev 2000 false] (by decide)⟩
